import Mathlib

/-!
Verification of the intcode virtual machine (Rust sources: `src/memory.rs`,
`src/processor/mod.rs`, `src/processor/handlers.rs`) against its
natural-language specification.

Shallow embedding conventions:
* `Value` (Rust: newtype over `i32`) is modelled as an unbounded `Int`; the
  claims under study never leave the `i32` range, so wrap-around is not
  modelled.
* `Address` (Rust: newtype over `u32`) is modelled as `Nat`; every address
  produced by the embedded programs is far below `2^32`.
* Rust `%` and `/` on signed integers truncate toward zero, so they are
  embedded as `Int.tmod` and `Int.tdiv`.
* Fallible Rust functions returning `Result` become `Except`.
* The driver loops `execute` and `execute_until_output` are embedded with an
  explicit fuel parameter; `none` means the fuel ran out before the loop
  finished, `some` carries the loop's result together with the final
  processor state.
-/

namespace Intcode

/-- `Value` from `memory.rs`: the signed integer cell type (`i32` in the source). -/
abbrev Value := Int

/-- `Address` from `memory.rs`: the non-negative index type (`u32` in the source). -/
abbrev Address := Nat

/-- `memory::TryFromValueError` from `memory.rs`. -/
inductive TryFromValueError where
  | OutOfRange (v : Value)
deriving DecidableEq

/-- `impl TryFrom<Value> for Address` from `memory.rs` lines 11-20: the
conversion succeeds exactly on non-negative values (every non-negative `i32`
fits in a `u32`). -/
def addressTryFromValue (v : Value) : Except TryFromValueError Address :=
  if 0 ≤ v then .ok v.toNat else .error (.OutOfRange v)

/-- `memory::Error` from `memory.rs` lines 39-42 (re-exported as `MemoryError`). -/
inductive MemoryError where
  | EmptyRead (a : Address)
deriving DecidableEq

/-- `Memory` from `memory.rs`: a sparse mapping from `Address` to `Value`
(a `HashMap` in the source), embedded as a partial function. -/
def Memory := Address → Option Value

/-- `Memory::read` from `memory.rs` lines 30-32: stored value, or
`EmptyRead(addr)` when the address was never written. -/
def Memory.read (m : Memory) (a : Address) : Except MemoryError Value :=
  match m a with
  | some v => .ok v
  | none => .error (.EmptyRead a)

/-- `Memory::write` from `memory.rs` lines 34-36: unconditional upsert. -/
def Memory.write (m : Memory) (a : Address) (v : Value) : Memory :=
  fun x => if x = a then some v else m x

/-- `Memory::new` from `memory.rs` lines 26-28: the callers build the initial
`HashMap` from a finite list of (address, value) pairs; later pairs for the
same key overwrite earlier ones, exactly as repeated `insert`s do. -/
def Memory.new (pairs : List (Address × Value)) : Memory :=
  pairs.foldl (fun m p => m.write p.1 p.2) (fun _ => none)

/-- `processor::Error` from `processor/mod.rs` lines 87-94.

The constructor `MemoryReadFailure` is modelled from the spec: §7 requires
memory-layer errors met while resolving an operand to propagate verbatim to
the caller; the snapshot's `read_argument` applies `?` to `Memory::read`
but the snapshot's `Error` enum has no variant to receive it (the required
`From<memory::Error>` impl is absent), so the propagated wrapper is supplied
here following the spec's propagation policy. -/
inductive ProcessorError where
  | IllegalPositionalArgument (e : TryFromValueError)
  | IllegalMode
  | InputReadError
  | InvalidOpcode
  | FinishedWithoutTerminating
  | MemoryReadFailure (e : MemoryError)
deriving DecidableEq

/-- `ModeTryFromError` from `processor/mod.rs` lines 118-120. -/
inductive ModeTryFromError where
  | InvalidMode
deriving DecidableEq

/-- `Mode` from `processor/mod.rs` lines 98-103. -/
inductive Mode where
  | Positional
  | Immediate
  | Relative
deriving DecidableEq

/-- `impl TryFrom<Modes> for Mode` from `processor/mod.rs` lines 105-116:
0, 1, 2 map to the three modes, anything else is `InvalidMode`. -/
def Mode.tryFrom (v : Int) : Except ModeTryFromError Mode :=
  if v = 0 then .ok .Positional
  else if v = 1 then .ok .Immediate
  else if v = 2 then .ok .Relative
  else .error .InvalidMode

/-- `Processor` from `processor/mod.rs` lines 9-15. The `VecDeque` input
buffer is embedded as a list consumed from the front. -/
structure Processor where
  pc : Address
  relative_base : Value
  memory : Memory
  input_buffer : List Value

/-- `Processor::new` from `processor/mod.rs` lines 18-25. -/
def Processor.new (m : Memory) : Processor :=
  { pc := 0, relative_base := 0, memory := m, input_buffer := [] }

/-- `Processor::push_input` from `processor/mod.rs` lines 76-78. -/
def Processor.push_input (p : Processor) (v : Value) : Processor :=
  { p with input_buffer := p.input_buffer ++ [v] }

/-- The digit extracted by iteration `i` of the loop in `split_modes`
(`processor/handlers.rs` lines 166-180): `(num % 10^(i+1)) / 10^i` with
Rust's truncating semantics. -/
def mode_digit (num : Int) (i : Nat) : Int :=
  (num.tmod (10 ^ (i + 1))).tdiv (10 ^ i)

/-- One iteration of `split_modes`: `mode.try_into().or(Err(Error::IllegalMode))`
(`processor/handlers.rs` line 176). -/
def modeOf (num : Int) (i : Nat) : Except ProcessorError Mode :=
  match Mode.tryFrom (mode_digit num i) with
  | .ok m => .ok m
  | .error _ => .error .IllegalMode

/-- `split_modes::<1>` from `processor/handlers.rs` lines 166-180, unrolled. -/
def split_modes1 (num : Int) : Except ProcessorError Mode :=
  modeOf num 0

/-- `split_modes::<2>` from `processor/handlers.rs` lines 166-180, unrolled:
digits are decoded least-significant first and the first out-of-range digit
aborts with `IllegalMode`. -/
def split_modes2 (num : Int) : Except ProcessorError (Mode × Mode) := do
  let m0 ← modeOf num 0
  let m1 ← modeOf num 1
  pure (m0, m1)

/-- `split_modes::<3>` from `processor/handlers.rs` lines 166-180, unrolled. -/
def split_modes3 (num : Int) : Except ProcessorError (Mode × Mode × Mode) := do
  let m0 ← modeOf num 0
  let m1 ← modeOf num 1
  let m2 ← modeOf num 2
  pure (m0, m1, m2)

/-- Propagation of a memory-layer failure out of an operand access (the `?`
applied to `Memory::read` inside `read_argument`); see the note on
`ProcessorError.MemoryReadFailure`. -/
def liftMem (r : Except MemoryError Value) : Except ProcessorError Value :=
  match r with
  | .ok v => .ok v
  | .error e => .error (.MemoryReadFailure e)

/-- The `From<memory::TryFromValueError>` conversion that `derive_more::From`
generates for `processor::Error` (`processor/mod.rs` line 89), applied by the
`?` on `try_into()` in the handlers. -/
def liftAddr (r : Except TryFromValueError Address) : Except ProcessorError Address :=
  match r with
  | .ok a => .ok a
  | .error e => .error (.IllegalPositionalArgument e)

/-- `Processor::read_argument` from `processor/handlers.rs` lines 153-163.
The parameter cell sits at `pc + 1 + index`; Positional reads through it,
Immediate returns it.

The `Relative` arm is modelled from the spec: the snapshot's `match` has no
arm for `Mode::Relative` (the source file is missing the relative-mode read
resolution), so it is supplied following the spec's words — the cell at the
parameter position holds an offset; add it to the relative-base register to
obtain the operand's address, then read that address. -/
def read_argument (p : Processor) (mode : Mode) (index : Nat) : Except ProcessorError Value :=
  let addr := p.pc + 1 + index
  match mode with
  | .Positional => do
      let addr2 ← liftMem (p.memory.read addr)
      let addr2 ← liftAddr (addressTryFromValue addr2)
      liftMem (p.memory.read addr2)
  | .Immediate => liftMem (p.memory.read addr)
  | .Relative => do
      let off ← liftMem (p.memory.read addr)
      let addr2 ← liftAddr (addressTryFromValue (p.relative_base + off))
      liftMem (p.memory.read addr2)

/-- The result type of the instruction handlers (`OpcodeResult` in
`processor/handlers.rs` line 33); `&mut self` mutation becomes an explicit
returned `Processor`. -/
def OpcodeResult := Except ProcessorError (Option Value × Processor)

/-- `Processor::add` from `processor/handlers.rs` lines 36-48. Note that only
two mode digits are decoded (`split_modes::<2>`) and the write target is
resolved by reading the parameter cell at `pc + 3` with `Mode::Immediate` and
converting its value to an address. -/
def Processor.add (p : Processor) (modes : Int) : OpcodeResult := do
  let (m0, m1) ← split_modes2 modes
  let num1 ← read_argument p m0 0
  let num2 ← read_argument p m1 1
  let rawOut ← read_argument p .Immediate 2
  let out_addr ← liftAddr (addressTryFromValue rawOut)
  pure (none, { p with memory := p.memory.write out_addr (num1 + num2), pc := p.pc + 4 })

/-- `Processor::multiply` from `processor/handlers.rs` lines 50-62. -/
def Processor.multiply (p : Processor) (modes : Int) : OpcodeResult := do
  let (m0, m1) ← split_modes2 modes
  let num1 ← read_argument p m0 0
  let num2 ← read_argument p m1 1
  let rawOut ← read_argument p .Immediate 2
  let out_addr ← liftAddr (addressTryFromValue rawOut)
  pure (none, { p with memory := p.memory.write out_addr (num1 * num2), pc := p.pc + 4 })

/-- `Processor::input` from `processor/handlers.rs` lines 64-75: the write
target is resolved first (Immediate read of the cell at `pc + 1`, converted
to an address), then the front of the input queue is popped, failing with
`InputReadError` when the queue is empty; only then are memory and the
program counter mutated. The source function takes no mode argument and
validates no mode digits. -/
def Processor.input (p : Processor) : OpcodeResult := do
  let rawOut ← read_argument p .Immediate 0
  let out_addr ← liftAddr (addressTryFromValue rawOut)
  match p.input_buffer with
  | [] => .error .InputReadError
  | v :: rest =>
      pure (none, { p with memory := p.memory.write out_addr v,
                           input_buffer := rest, pc := p.pc + 2 })

/-- `Processor::output` from `processor/handlers.rs` lines 77-85. -/
def Processor.output (p : Processor) (modes : Int) : OpcodeResult := do
  let m0 ← split_modes1 modes
  let val ← read_argument p m0 0
  pure (some val, { p with pc := p.pc + 2 })

/-- `Processor::jump_if_true` from `processor/handlers.rs` lines 87-101. -/
def Processor.jump_if_true (p : Processor) (modes : Int) : OpcodeResult := do
  let (m0, m1) ← split_modes2 modes
  let condition ← read_argument p m0 0
  let jump_to ← read_argument p m1 1
  let jump_to ← liftAddr (addressTryFromValue jump_to)
  pure (none, { p with pc := if condition ≠ 0 then jump_to else p.pc + 3 })

/-- `Processor::jump_if_false` from `processor/handlers.rs` lines 103-117. -/
def Processor.jump_if_false (p : Processor) (modes : Int) : OpcodeResult := do
  let (m0, m1) ← split_modes2 modes
  let condition ← read_argument p m0 0
  let jump_to ← read_argument p m1 1
  let jump_to ← liftAddr (addressTryFromValue jump_to)
  pure (none, { p with pc := if condition = 0 then jump_to else p.pc + 3 })

/-- `Processor::less_than` from `processor/handlers.rs` lines 119-134: all
three mode digits are decoded (`split_modes::<3>`), but the write target is
still resolved by an Immediate read of the cell at `pc + 3`. -/
def Processor.less_than (p : Processor) (modes : Int) : OpcodeResult := do
  let (m0, m1, _m2) ← split_modes3 modes
  let cmp1 ← read_argument p m0 0
  let cmp2 ← read_argument p m1 1
  let rawOut ← read_argument p .Immediate 2
  let out_addr ← liftAddr (addressTryFromValue rawOut)
  pure (none, { p with memory := p.memory.write out_addr (if cmp1 < cmp2 then 1 else 0),
                       pc := p.pc + 4 })

/-- `Processor::equals` from `processor/handlers.rs` lines 136-151. -/
def Processor.equals (p : Processor) (modes : Int) : OpcodeResult := do
  let (m0, m1, _m2) ← split_modes3 modes
  let cmp1 ← read_argument p m0 0
  let cmp2 ← read_argument p m1 1
  let rawOut ← read_argument p .Immediate 2
  let out_addr ← liftAddr (addressTryFromValue rawOut)
  pure (none, { p with memory := p.memory.write out_addr (if cmp1 = cmp2 then 1 else 0),
                       pc := p.pc + 4 })

/-- Modelled from the spec: the `adjust_relative_base` handler is dispatched
by `execute_once` (`processor/mod.rs` line 42) but absent from the snapshot's
`handlers.rs`; per the spec's opcode table, opcode 9 reads one operand with
its decoded mode, adds it to the relative-base register and advances the
program counter by 2. -/
def Processor.adjust_relative_base (p : Processor) (modes : Int) : OpcodeResult := do
  let m0 ← split_modes1 modes
  let a ← read_argument p m0 0
  pure (none, { p with relative_base := p.relative_base + a, pc := p.pc + 2 })

/-- `ProcessorState` from `processor/mod.rs` lines 81-85. -/
inductive ProcessorState where
  | Continue (out : Option Value)
  | Terminate
  | Error (e : ProcessorError)
deriving DecidableEq

/-- The fetch performed at the top of `execute_once` (`processor/mod.rs`
line 28).

Modelled from the spec for the never-written case: the snapshot reads the
cell at the program counter without handling a `Memory::read` failure (the
expression does not type-check in the snapshot), and the spec's decode
description — control "ran off the end of intended control flow", reported
through the opcode-0 condition `FinishedWithoutTerminating` — together with
the snapshot's own `missing_terminator` test require a fetch of a
never-written cell to behave as the value 0. -/
def Processor.fetch (p : Processor) : Value :=
  match p.memory.read p.pc with
  | .ok v => v
  | .error _ => 0

/-- The wrapping of a handler result performed at `processor/mod.rs` lines
47-50: a handler success becomes `Continue`, a handler error becomes
`Error`; on error the processor state is the pre-step one (no handler
mutates state before its last fallible operation). -/
def liftStep (p : Processor) (r : OpcodeResult) : ProcessorState × Processor :=
  match r with
  | .ok (o, p2) => (.Continue o, p2)
  | .error e => (.Error e, p)

/-- `Processor::execute_once` from `processor/mod.rs` lines 27-51: the cell at
the program counter is split into `modes` (the quotient by 100) and the
opcode (the remainder); opcodes 1-9 dispatch to the handlers, 0 is the
distinct `FinishedWithoutTerminating` condition, 99 terminates, anything
else is `InvalidOpcode`. The source passes `modes` to `input` although the
handler takes none; the dispatch here drops it accordingly. -/
def Processor.execute_once (p : Processor) : ProcessorState × Processor :=
  let modes_and_opcode := p.fetch
  let modes := modes_and_opcode.tdiv 100
  let opcode := modes_and_opcode.tmod 100
  if opcode = 1 then liftStep p (p.add modes)
  else if opcode = 2 then liftStep p (p.multiply modes)
  else if opcode = 3 then liftStep p p.input
  else if opcode = 4 then liftStep p (p.output modes)
  else if opcode = 5 then liftStep p (p.jump_if_true modes)
  else if opcode = 6 then liftStep p (p.jump_if_false modes)
  else if opcode = 7 then liftStep p (p.less_than modes)
  else if opcode = 8 then liftStep p (p.equals modes)
  else if opcode = 9 then liftStep p (p.adjust_relative_base modes)
  else if opcode = 0 then (.Error .FinishedWithoutTerminating, p)
  else if opcode = 99 then (.Terminate, p)
  else (.Error .InvalidOpcode, p)

/-- `Processor::execute` from `processor/mod.rs` lines 53-61, with explicit
fuel bounding the number of `execute_once` steps: `none` means the fuel ran
out, `some` carries the loop's result and the final processor. -/
def Processor.execute_fuel : Nat → Processor → Option (Except ProcessorError Unit × Processor)
  | 0, _ => none
  | n + 1, p =>
    match p.execute_once with
    | (.Continue _, p2) => Processor.execute_fuel n p2
    | (.Terminate, p2) => some (.ok (), p2)
    | (.Error e, p2) => some (.error e, p2)

/-- `Processor::execute_until_output` from `processor/mod.rs` lines 63-74,
with explicit fuel: the loop stops at the first step that yields an output
value (`some (some (.ok v))`), at termination (`some none`), or at an error
(`some (some (.error e))`). -/
def Processor.execute_until_output_fuel :
    Nat → Processor → Option (Option (Except ProcessorError Value) × Processor)
  | 0, _ => none
  | n + 1, p =>
    match p.execute_once with
    | (.Continue (some out), p2) => some (some (.ok out), p2)
    | (.Continue none, p2) => Processor.execute_until_output_fuel n p2
    | (.Terminate, p2) => some (none, p2)
    | (.Error e, p2) => some (some (.error e), p2)

/-! ## Helper lemmas -/

instance instDecEqExcept {ε α : Type} [DecidableEq ε] [DecidableEq α] :
    DecidableEq (Except ε α) := fun x y =>
  match x, y with
  | .ok a, .ok b =>
      if h : a = b then .isTrue (by rw [h]) else .isFalse (by simp [h])
  | .error e, .error f =>
      if h : e = f then .isTrue (by rw [h]) else .isFalse (by simp [h])
  | .ok _, .error _ => .isFalse (by simp)
  | .error _, .ok _ => .isFalse (by simp)

@[simp]
theorem exc_bind_ok {ε α β : Type} (a : α) (f : α → Except ε β) :
    (Except.ok a >>= f : Except ε β) = f a := rfl

@[simp]
theorem exc_bind_error {ε α β : Type} (e : ε) (f : α → Except ε β) :
    (Except.error e >>= f : Except ε β) = .error e := rfl

@[simp]
theorem exc_pure {ε α : Type} (a : α) : (pure a : Except ε α) = .ok a := rfl

theorem Memory.read_write (m : Memory) (a x : Address) (v : Value) :
    (m.write a v).read x = if x = a then .ok v else m.read x := by
  unfold Memory.write Memory.read
  by_cases h : x = a <;> simp [h]

/-- The value of the last (address, value) pair for address `a` in a list of
writes, scanning so that later list entries take precedence. -/
def lookupLast (a : Address) : List (Address × Value) → Option Value
  | [] => none
  | p :: t =>
    match lookupLast a t with
    | some v => some v
    | none => if p.1 = a then some p.2 else none

theorem foldl_write_read (l : List (Address × Value)) (m : Memory) (a : Address) :
    (l.foldl (fun m p => m.write p.1 p.2) m).read a =
      match lookupLast a l with
      | some v => .ok v
      | none => m.read a := by
  induction l generalizing m with
  | nil => rfl
  | cons p t ih =>
    simp only [List.foldl_cons, lookupLast]
    rw [ih]
    cases h : lookupLast a t with
    | some v => rfl
    | none =>
      by_cases hpa : p.1 = a
      · simp [Memory.read_write, hpa]
      · simp [Memory.read_write, hpa, Ne.symm hpa]

/-! ## Concrete machine states used by the claims -/

/-- Initial memory `{0:45}` (spec §8, invalid-opcode scenario). -/
def p45 : Processor := Processor.new (Memory.new [(0, 45)])

/-- Initial memory `{0:1, 1:2, 2:3, 3:100}` (spec §8, missing-halt scenario). -/
def p6 : Processor := Processor.new (Memory.new [(0, 1), (1, 2), (2, 3), (3, 100)])

/-- Initial memory `{0:1, 1:10, 2:20, 3:100, 4:99, 10:41, 20:9}` (spec §8,
add scenario). -/
def p8 : Processor :=
  Processor.new (Memory.new [(0, 1), (1, 10), (2, 20), (3, 100), (4, 99), (10, 41), (20, 9)])

/-- Initial memory `{0:104, 1:50, 2:99}` (spec §8, output scenario). -/
def p9 : Processor := Processor.new (Memory.new [(0, 104), (1, 50), (2, 99)])

/-- A less-than instruction `11107` whose write-operand mode digit is 1:
operands 2 and 3 immediate, write parameter cell at address 3 holding 9. -/
def p1c : Processor := Processor.new (Memory.new [(0, 11107), (1, 2), (2, 3), (3, 9)])

/-- An add instruction `31101` whose write-operand mode digit is 3 (outside
0-2): operands 5 and 6 immediate, write parameter cell at address 3 holding 9. -/
def p4c : Processor := Processor.new (Memory.new [(0, 31101), (1, 5), (2, 6), (3, 9)])

/-- An input instruction `3` whose write parameter cell holds the negative
value -5, with an empty input queue. -/
def p10c : Processor := Processor.new (Memory.new [(0, 3), (1, -5)])

/-! ## Claims -/

/-- C7: for every initial image and every sequence of writes, `Memory.read`
at an address returns the most recently written value there, and fails with
`EmptyRead` at exactly the addresses that no write (initial image included)
ever touched. -/
theorem C7_memory_read_last_write (init ws : List (Address × Value)) (a : Address) :
    (ws.foldl (fun m p => m.write p.1 p.2) (Memory.new init)).read a =
      match lookupLast a (init ++ ws) with
      | some v => .ok v
      | none => .error (.EmptyRead a) := by
  unfold Memory.new
  rw [← List.foldl_append, foldl_write_read]
  cases lookupLast a (init ++ ws) <;> rfl

/-- C6: running `execute` on memory `{0:1, 1:2, 2:3, 3:100}` with no inputs
fails with `FinishedWithoutTerminating` (the add at 0 succeeds, then the
fetch at the never-written address 4 behaves as opcode 0); the loop finishes
within 2 steps of fuel. -/
theorem C6_missing_halt :
    (Processor.execute_fuel 2 p6).map Prod.fst =
      some (.error .FinishedWithoutTerminating) := by decide

/-- C8: running `execute` on memory `{0:1, 1:10, 2:20, 3:100, 4:99, 10:41,
20:9}` with no inputs succeeds (within 2 steps of fuel); afterwards address
100 holds 50, every initially-written address still holds its initial value,
and every address other than 100 reads exactly as it did initially. -/
theorem C8_add_scenario :
    (Processor.execute_fuel 2 p8).map Prod.fst = some (.ok ()) ∧
    ((Processor.execute_fuel 2 p8).map fun r => (r.2.memory.read 100, r.2.memory.read 0)) =
      some (.ok 50, .ok 1) ∧
    ((Processor.execute_fuel 2 p8).map fun r => (r.2.memory.read 1, r.2.memory.read 2)) =
      some (.ok 10, .ok 20) ∧
    ((Processor.execute_fuel 2 p8).map fun r => (r.2.memory.read 3, r.2.memory.read 4)) =
      some (.ok 100, .ok 99) ∧
    ((Processor.execute_fuel 2 p8).map fun r => (r.2.memory.read 10, r.2.memory.read 20)) =
      some (.ok 41, .ok 9) ∧
    (∀ a : Address, a ≠ 100 →
      ((Processor.execute_fuel 2 p8).map fun r => r.2.memory.read a) =
        some (p8.memory.read a)) := by
  have h : Processor.execute_fuel 2 p8 =
      some (.ok (), { pc := 4, relative_base := 0,
                      memory := p8.memory.write 100 50, input_buffer := [] }) := by rfl
  refine ⟨by decide, by decide, by decide, by decide, by decide, ?_⟩
  intro a ha
  rw [h]
  simp only [Option.map_some']
  rw [Memory.read_write, if_neg ha]

theorem C8_add_scenario_witness :
    ((Processor.execute_fuel 2 p8).map fun r => r.2.memory.read 5) =
      some (p8.memory.read 5) :=
  C8_add_scenario.2.2.2.2.2 5 (by decide)

/-- C9: on memory `{0:104, 1:50, 2:99}`, the first `execute_until_output`
call yields `Some(Ok(50))` and a second call on the resulting processor
yields `None` (each loop finishes within 3 steps of fuel). -/
theorem C9_output_scenario :
    (Processor.execute_until_output_fuel 3 p9).map Prod.fst = some (some (.ok 50)) ∧
    ((Processor.execute_until_output_fuel 3 p9).bind fun r =>
        (Processor.execute_until_output_fuel 3 r.2).map Prod.fst) = some none := by
  decide

/-- C1, counterexample: on memory `{0:11107, 1:2, 2:3, 3:9}` the less-than
instruction has write-operand mode digit 1, yet the step writes its result 1
to address 9 (the contents of the parameter cell at address 3) and leaves the
parameter cell's own address 3 untouched — the claim predicts the write to
land on address 3 = pc + 1 + 2. -/
theorem C1_counterexample :
    mode_digit ((p1c.fetch).tdiv 100) 2 = 1 ∧
    (p1c.execute_once).1 = .Continue none ∧
    (p1c.execute_once).2.memory.read 9 = .ok 1 ∧
    (p1c.execute_once).2.memory.read 3 = .ok 9 ∧
    ¬(p1c.execute_once).2.memory.read 3 = .ok 1 := by decide

/-- C4, counterexample: on memory `{0:31101, 1:5, 2:6, 3:9}` the add
instruction's write-operand mode digit is 3 — outside {0, 1, 2} — yet the
step completes normally instead of failing with `IllegalMode`, because `add`
decodes only the first two mode digits. -/
theorem C4_counterexample :
    mode_digit ((p4c.fetch).tdiv 100) 2 = 3 ∧
    (p4c.execute_once).1 = .Continue none ∧
    ¬(p4c.execute_once).1 = .Error .IllegalMode := by decide

/-- C10, counterexample: on memory `{0:3, 1:-5}` with an empty input queue,
the input instruction fails with `IllegalPositionalArgument(OutOfRange(-5))`
— not `InputReadError` — because the write-operand cell holds a negative
value and its address conversion happens before the queue is consulted. -/
theorem C10_counterexample :
    p10c.input_buffer = [] ∧
    (p10c.fetch).tmod 100 = 3 ∧
    (p10c.execute_once).1 = .Error (.IllegalPositionalArgument (.OutOfRange (-5))) ∧
    ¬(p10c.execute_once).1 = .Error .InputReadError := by decide

theorem read_argument_immediate (p : Processor) (i : Nat) :
    read_argument p .Immediate i = liftMem (p.memory.read (p.pc + 1 + i)) := rfl

/-- A mode digit outside the set {0, 1, 2} accepted by `Mode::try_from`. -/
abbrev badDigit (num : Int) (i : Nat) : Prop :=
  mode_digit num i ≠ 0 ∧ mode_digit num i ≠ 1 ∧ mode_digit num i ≠ 2

theorem modeOf_bad {num : Int} {i : Nat} (h : badDigit num i) :
    modeOf num i = .error .IllegalMode := by
  unfold modeOf Mode.tryFrom
  obtain ⟨h0, h1, h2⟩ := h
  rw [if_neg h0, if_neg h1, if_neg h2]

theorem modeOf_ok_or (num : Int) (i : Nat) :
    (∃ m, modeOf num i = .ok m) ∨ modeOf num i = .error .IllegalMode := by
  unfold modeOf
  cases Mode.tryFrom (mode_digit num i) with
  | ok m => exact Or.inl ⟨m, rfl⟩
  | error e => exact Or.inr rfl

theorem split_modes1_bad {num : Int} (h : badDigit num 0) :
    split_modes1 num = .error .IllegalMode := by
  simp [split_modes1, modeOf_bad h]

theorem split_modes2_bad {num : Int} (h : badDigit num 0 ∨ badDigit num 1) :
    split_modes2 num = .error .IllegalMode := by
  cases h with
  | inl h => simp [split_modes2, modeOf_bad h]
  | inr h =>
    rcases modeOf_ok_or num 0 with ⟨m, hm⟩ | hm <;>
      simp [split_modes2, hm, modeOf_bad h]

theorem split_modes3_bad {num : Int}
    (h : badDigit num 0 ∨ badDigit num 1 ∨ badDigit num 2) :
    split_modes3 num = .error .IllegalMode := by
  rcases h with h | h | h
  · simp [split_modes3, modeOf_bad h]
  · rcases modeOf_ok_or num 0 with ⟨m, hm⟩ | hm <;>
      simp [split_modes3, hm, modeOf_bad h]
  · rcases modeOf_ok_or num 0 with ⟨m, hm⟩ | hm <;>
      rcases modeOf_ok_or num 1 with ⟨m1, hm1⟩ | hm1 <;>
      simp [split_modes3, hm, hm1, modeOf_bad h]

set_option maxHeartbeats 1600000 in
/-- C5: `execute_once` classifies the low two decimal digits of the fetched
cell as the opcode — 0 gives the distinct `FinishedWithoutTerminating`
error, 99 gives `Terminate`, anything outside {1..9, 99, 0} gives
`InvalidOpcode` (all three leave the processor untouched) — and on the
concrete initial memory `{0:45}`, `execute` fails with `InvalidOpcode`
within one step of fuel. -/
theorem C5_opcode_classification :
    (∀ p : Processor, (p.fetch).tmod 100 = 0 →
      p.execute_once = (.Error .FinishedWithoutTerminating, p)) ∧
    (∀ p : Processor, (p.fetch).tmod 100 = 99 → p.execute_once = (.Terminate, p)) ∧
    (∀ p : Processor, ¬(1 ≤ (p.fetch).tmod 100 ∧ (p.fetch).tmod 100 ≤ 9) →
      (p.fetch).tmod 100 ≠ 0 → (p.fetch).tmod 100 ≠ 99 →
      p.execute_once = (.Error .InvalidOpcode, p)) ∧
    (Processor.execute_fuel 1 p45).map Prod.fst = some (.error .InvalidOpcode) := by
  refine ⟨?_, ?_, ?_, by decide⟩
  · intro p h
    simp only [Processor.execute_once]
    split_ifs <;> first | omega | rfl
  · intro p h
    simp only [Processor.execute_once]
    split_ifs <;> first | omega | rfl
  · intro p h1 h2 h3
    simp only [Processor.execute_once]
    split_ifs <;> first | omega | rfl

/-- Fetch value 300: opcode 0, so the step reports `FinishedWithoutTerminating`. -/
def pFW : Processor := Processor.new (Memory.new [(0, 300)])

/-- Fetch value 99: the halt opcode. -/
def p99w : Processor := Processor.new (Memory.new [(0, 99)])

theorem C5_opcode_classification_witness :
    pFW.execute_once = (.Error .FinishedWithoutTerminating, pFW) ∧
    p99w.execute_once = (.Terminate, p99w) ∧
    p45.execute_once = (.Error .InvalidOpcode, p45) :=
  ⟨C5_opcode_classification.1 pFW (by decide),
   C5_opcode_classification.2.1 p99w (by decide),
   C5_opcode_classification.2.2.1 p45 (by decide) (by decide) (by decide)⟩

/-- C2: mode digit 2 decodes to `Relative`, and relative-mode operand
resolution reads memory once through the address `relative_base + offset`,
where `offset` is the value stored in the parameter cell at `pc + 1 + i`. -/
theorem C2_relative_resolution :
    Mode.tryFrom 2 = .ok .Relative ∧
    ∀ (p : Processor) (i : Nat) (off : Value),
      p.memory.read (p.pc + 1 + i) = .ok off →
      0 ≤ p.relative_base + off →
      read_argument p .Relative i =
        liftMem (p.memory.read (p.relative_base + off).toNat) := by
  refine ⟨rfl, ?_⟩
  intro p i off hread hnn
  simp [read_argument, hread, liftMem, addressTryFromValue, hnn, liftAddr]

/-- Relative base 10, parameter cell at address 1 holding offset 5, target
cell at address 15 holding 7. -/
def pW2 : Processor :=
  { pc := 0, relative_base := 10, memory := Memory.new [(1, 5), (15, 7)], input_buffer := [] }

theorem C2_relative_resolution_witness :
    read_argument pW2 .Relative 0 =
      liftMem (pW2.memory.read ((pW2.relative_base + 5).toNat)) :=
  C2_relative_resolution.2 pW2 0 5 (by decide) (by decide)

/-- C3: for the write operand of `add` and `multiply` with decoded mode
digit 0 (Positional), the written address is the literal value `v` stored in
the parameter cell at `pc + 1 + 2`, converted to an address — no second
level of indirection. -/
theorem C3_positional_write_target :
    (∀ (p : Processor) (modes : Int) (m0 m1 : Mode) (num1 num2 v : Value),
      mode_digit modes 2 = 0 →
      split_modes2 modes = .ok (m0, m1) →
      read_argument p m0 0 = .ok num1 →
      read_argument p m1 1 = .ok num2 →
      p.memory.read (p.pc + 1 + 2) = .ok v →
      0 ≤ v →
      p.add modes = .ok (none, { p with memory := p.memory.write v.toNat (num1 + num2),
                                        pc := p.pc + 4 })) ∧
    (∀ (p : Processor) (modes : Int) (m0 m1 : Mode) (num1 num2 v : Value),
      mode_digit modes 2 = 0 →
      split_modes2 modes = .ok (m0, m1) →
      read_argument p m0 0 = .ok num1 →
      read_argument p m1 1 = .ok num2 →
      p.memory.read (p.pc + 1 + 2) = .ok v →
      0 ≤ v →
      p.multiply modes = .ok (none, { p with memory := p.memory.write v.toNat (num1 * num2),
                                             pc := p.pc + 4 })) := by
  constructor
  · intro p modes m0 m1 num1 num2 v _ hsplit h0 h1 hread hv
    simp [Processor.add, hsplit, h0, h1, read_argument_immediate, hread, liftMem,
          addressTryFromValue, hv, liftAddr]
  · intro p modes m0 m1 num1 num2 v _ hsplit h0 h1 hread hv
    simp [Processor.multiply, hsplit, h0, h1, read_argument_immediate, hread, liftMem,
          addressTryFromValue, hv, liftAddr]

/-- The spec §8 add scenario memory, reused as a concrete instantiation. -/
def pW3 : Processor :=
  Processor.new (Memory.new [(0, 1), (1, 10), (2, 20), (3, 100), (4, 99), (10, 41), (20, 9)])

theorem C3_positional_write_target_witness :
    pW3.add 0 = .ok (none, { pW3 with memory := pW3.memory.write (Int.toNat 100) (41 + 9),
                                      pc := pW3.pc + 4 }) :=
  C3_positional_write_target.1 pW3 0 .Positional .Positional 41 9 100
    (by decide) (by decide) (by decide) (by decide) (by decide) (by decide)

/-- C1 (amended): for the write operand of `add` and `less_than` with
decoded mode digit 1 (Immediate), the write lands on the address given by
the parameter cell's contents `v` — exactly as for digit 0 — not on the
parameter cell's own address `pc + 1 + 2`; the decoded digit for the write
position never influences the target. -/
theorem C1_immediate_write_target :
    (∀ (p : Processor) (modes : Int) (m0 m1 : Mode) (num1 num2 v : Value),
      mode_digit modes 2 = 1 →
      split_modes2 modes = .ok (m0, m1) →
      read_argument p m0 0 = .ok num1 →
      read_argument p m1 1 = .ok num2 →
      p.memory.read (p.pc + 1 + 2) = .ok v →
      0 ≤ v →
      p.add modes = .ok (none, { p with memory := p.memory.write v.toNat (num1 + num2),
                                        pc := p.pc + 4 })) ∧
    (∀ (p : Processor) (modes : Int) (m0 m1 m2 : Mode) (cmp1 cmp2 v : Value),
      mode_digit modes 2 = 1 →
      split_modes3 modes = .ok (m0, m1, m2) →
      read_argument p m0 0 = .ok cmp1 →
      read_argument p m1 1 = .ok cmp2 →
      p.memory.read (p.pc + 1 + 2) = .ok v →
      0 ≤ v →
      p.less_than modes = .ok (none,
        { p with memory := p.memory.write v.toNat (if cmp1 < cmp2 then 1 else 0),
                 pc := p.pc + 4 })) := by
  constructor
  · intro p modes m0 m1 num1 num2 v _ hsplit h0 h1 hread hv
    simp [Processor.add, hsplit, h0, h1, read_argument_immediate, hread, liftMem,
          addressTryFromValue, hv, liftAddr]
  · intro p modes m0 m1 m2 cmp1 cmp2 v _ hsplit h0 h1 hread hv
    simp [Processor.less_than, hsplit, h0, h1, read_argument_immediate, hread, liftMem,
          addressTryFromValue, hv, liftAddr]

/-- Add instruction `11101`: both read operands immediate, write digit 1,
write parameter cell at address 3 holding 9. -/
def pW1 : Processor := Processor.new (Memory.new [(0, 11101), (1, 5), (2, 6), (3, 9)])

theorem C1_immediate_write_target_witness :
    pW1.add 111 = .ok (none, { pW1 with memory := pW1.memory.write (Int.toNat 9) (5 + 6),
                                        pc := pW1.pc + 4 }) :=
  C1_immediate_write_target.1 pW1 111 .Immediate .Immediate 5 6 9
    (by decide) (by decide) (by decide) (by decide) (by decide) (by decide)

/-- C4 (amended): a mode digit outside {0, 1, 2} fails the step with
`IllegalMode` exactly in the positions the handler decodes — the two read
operands for `add`, `multiply`, `jump_if_true` and `jump_if_false`, the one
operand for `output`, and all three positions (write operand included) for
`less_than` and `equals`; `add`'s behaviour is entirely independent of its
write-operand digit (and `input` decodes no digits at all, taking no mode
argument), so an out-of-range digit in such an undecoded position never
produces `IllegalMode`. -/
theorem C4_illegal_mode_coverage :
    (∀ (p : Processor) (modes : Int), badDigit modes 0 ∨ badDigit modes 1 →
      p.add modes = .error .IllegalMode) ∧
    (∀ (p : Processor) (modes : Int), badDigit modes 0 ∨ badDigit modes 1 →
      p.multiply modes = .error .IllegalMode) ∧
    (∀ (p : Processor) (modes : Int), badDigit modes 0 ∨ badDigit modes 1 →
      p.jump_if_true modes = .error .IllegalMode) ∧
    (∀ (p : Processor) (modes : Int), badDigit modes 0 ∨ badDigit modes 1 →
      p.jump_if_false modes = .error .IllegalMode) ∧
    (∀ (p : Processor) (modes : Int), badDigit modes 0 →
      p.output modes = .error .IllegalMode) ∧
    (∀ (p : Processor) (modes : Int), badDigit modes 0 ∨ badDigit modes 1 ∨ badDigit modes 2 →
      p.less_than modes = .error .IllegalMode) ∧
    (∀ (p : Processor) (modes : Int), badDigit modes 0 ∨ badDigit modes 1 ∨ badDigit modes 2 →
      p.equals modes = .error .IllegalMode) ∧
    (∀ (p : Processor) (mo1 mo2 : Int),
      mode_digit mo1 0 = mode_digit mo2 0 → mode_digit mo1 1 = mode_digit mo2 1 →
      p.add mo1 = p.add mo2) := by
  refine ⟨?_, ?_, ?_, ?_, ?_, ?_, ?_, ?_⟩
  · intro p modes h
    simp [Processor.add, split_modes2_bad h]
  · intro p modes h
    simp [Processor.multiply, split_modes2_bad h]
  · intro p modes h
    simp [Processor.jump_if_true, split_modes2_bad h]
  · intro p modes h
    simp [Processor.jump_if_false, split_modes2_bad h]
  · intro p modes h
    simp [Processor.output, split_modes1_bad h]
  · intro p modes h
    simp [Processor.less_than, split_modes3_bad h]
  · intro p modes h
    simp [Processor.equals, split_modes3_bad h]
  · intro p mo1 mo2 h0 h1
    have hsp : split_modes2 mo1 = split_modes2 mo2 := by
      unfold split_modes2 modeOf
      rw [h0, h1]
    simp [Processor.add, hsp]

/-- An arbitrary processor over an empty memory image. -/
def pW4 : Processor := Processor.new (Memory.new [])

theorem C4_illegal_mode_coverage_witness :
    pW4.add 3 = .error .IllegalMode ∧
    pW4.multiply 3 = .error .IllegalMode ∧
    pW4.jump_if_true 30 = .error .IllegalMode ∧
    pW4.jump_if_false 30 = .error .IllegalMode ∧
    pW4.output 3 = .error .IllegalMode ∧
    pW4.less_than 300 = .error .IllegalMode ∧
    pW4.equals 300 = .error .IllegalMode ∧
    pW4.add 300 = pW4.add 1300 :=
  ⟨C4_illegal_mode_coverage.1 pW4 3 (Or.inl (by decide)),
   C4_illegal_mode_coverage.2.1 pW4 3 (Or.inl (by decide)),
   C4_illegal_mode_coverage.2.2.1 pW4 30 (Or.inr (by decide)),
   C4_illegal_mode_coverage.2.2.2.1 pW4 30 (Or.inr (by decide)),
   C4_illegal_mode_coverage.2.2.2.2.1 pW4 3 (by decide),
   C4_illegal_mode_coverage.2.2.2.2.2.1 pW4 300 (Or.inr (Or.inr (by decide))),
   C4_illegal_mode_coverage.2.2.2.2.2.2.1 pW4 300 (Or.inr (Or.inr (by decide))),
   C4_illegal_mode_coverage.2.2.2.2.2.2.2 pW4 300 1300 (by decide) (by decide)⟩

/-- C10 (amended): when the input opcode executes with an empty input queue
and the write-operand cell reads successfully as a non-negative value, the
step fails with `InputReadError` and the processor — program counter,
relative base, memory and input queue — is returned unchanged; when operand
resolution itself fails, that resolution error is reported instead. -/
theorem C10_input_empty_queue (p : Processor) (v : Value)
    (hop : (p.fetch).tmod 100 = 3)
    (hread : p.memory.read (p.pc + 1) = .ok v)
    (hv : 0 ≤ v)
    (hq : p.input_buffer = []) :
    p.execute_once = (.Error .InputReadError, p) := by
  simp only [Processor.execute_once]
  rw [if_neg (by omega), if_neg (by omega), if_pos (by omega)]
  have hin : p.input = .error .InputReadError := by
    simp [Processor.input, read_argument, Nat.add_zero, hread, liftMem,
          addressTryFromValue, hv, liftAddr, hq]
  rw [hin]
  rfl

/-- Input instruction with write parameter cell holding 5 and empty queue. -/
def pW10 : Processor := Processor.new (Memory.new [(0, 3), (1, 5)])

theorem C10_input_empty_queue_witness :
    pW10.execute_once = (.Error .InputReadError, pW10) :=
  C10_input_empty_queue pW10 5 (by decide) (by decide) (by decide) (by decide)

end Intcode
